import Mathlib

/-!
Verification of the FAME Smart Flasher core (Linux port) against its
natural-language specification.

The development shallowly embeds the C++ sources:
* `src/linux/src/protocol/SLIPCodec.cpp`  — SLIP framing codec (one-shot and
  streaming decoder);
* `src/linux/src/protocol/ESP32Protocol.cpp/.h` — response parsing;
* `src/linux/src/models/FirmwareFile.cpp` — filename-based offset inference;
* `src/linux/src/services/FlashingService.cpp` — the flashing orchestrator
  (per-image erase/write loop, cancellation polling, error classification).

Bytes are modelled as `Nat` (QByteArray stores octets; no arithmetic in the
embedded code ever overflows a byte).  Doubles in progress reporting are
modelled as exact rationals, following the specification's phrase
"computed with exact arithmetic".
-/

namespace SLIPCodec

/-- `SLIPCodec::FRAME_END` (SLIPCodec.h). -/
def FRAME_END : Nat := 0xC0

/-- `SLIPCodec::FRAME_ESCAPE` (SLIPCodec.h). -/
def FRAME_ESCAPE : Nat := 0xDB

/-- `SLIPCodec::ESCAPED_END` (SLIPCodec.h). -/
def ESCAPED_END : Nat := 0xDC

/-- `SLIPCodec::ESCAPED_ESCAPE` (SLIPCodec.h). -/
def ESCAPED_ESCAPE : Nat := 0xDD

/-- One iteration of the loop body of `SLIPCodec::encode` (SLIPCodec.cpp,
lines 16-31): the switch over a single input byte. -/
def escapeByte (b : Nat) : List Nat :=
  if b = FRAME_END then [FRAME_ESCAPE, ESCAPED_END]
  else if b = FRAME_ESCAPE then [FRAME_ESCAPE, ESCAPED_ESCAPE]
  else [b]

/-- `SLIPCodec::encode` (SLIPCodec.cpp, lines 9-35): leading `FRAME_END`,
escaped body, trailing `FRAME_END`. -/
def encode (data : List Nat) : List Nat :=
  FRAME_END :: data.flatMap escapeByte ++ [FRAME_END]

/-- The escape substitution applied inside the decoders when `inEscape`
is set (SLIPCodec.cpp, lines 61-73 and 124-136): `ESCAPED_END` maps back to
`FRAME_END`, `ESCAPED_ESCAPE` to `FRAME_ESCAPE`, and an invalid escape byte
is appended verbatim. -/
def unescapeByte (b : Nat) : Nat :=
  if b = ESCAPED_END then FRAME_END
  else if b = ESCAPED_ESCAPE then FRAME_ESCAPE
  else b

/-- The loop of `SLIPCodec::decode` (SLIPCodec.cpp, lines 37-83) with the
local state `decoded`, `inEscape`, `started` made explicit.  On exhausting
the input the function returns `decoded.isEmpty() ? QByteArray() : decoded`. -/
def decodeGo : List Nat → List Nat → Bool → Bool → List Nat
  | [], decoded, _, _ => if decoded.isEmpty then [] else decoded
  | b :: rest, decoded, inEscape, started =>
    if b = FRAME_END then
      if started && !decoded.isEmpty then decoded
      else decodeGo rest [] inEscape true
    else if !started then decodeGo rest decoded inEscape started
    else if inEscape then decodeGo rest (decoded ++ [unescapeByte b]) false started
    else if b = FRAME_ESCAPE then decodeGo rest decoded true started
    else decodeGo rest (decoded ++ [b]) inEscape started

/-- `SLIPCodec::decode` (SLIPCodec.cpp, lines 37-83): the one-shot decoder,
starting with an empty buffer, `inEscape = false`, `started = false`. -/
def decode (slipPacket : List Nat) : List Nat :=
  decodeGo slipPacket [] false false

end SLIPCodec

/-- The state of the streaming decoder `SLIPDecoder` (SLIPCodec.h,
lines 66-69): members `m_buffer`, `m_inEscape`, `m_packetStarted`. -/
structure SLIPDecoder where
  buffer : List Nat
  inEscape : Bool
  packetStarted : Bool
deriving DecidableEq

/-- A freshly constructed `SLIPDecoder` (member initializers in
SLIPCodec.h: empty buffer, both flags false). -/
def SLIPDecoder.init : SLIPDecoder := ⟨[], false, false⟩

/-- `SLIPDecoder::reset` (SLIPCodec.cpp, lines 144-149). -/
def SLIPDecoder.reset (_d : SLIPDecoder) : SLIPDecoder := ⟨[], false, false⟩

/-- `SLIPDecoder::processByte` (SLIPCodec.cpp, lines 99-142).  The C++
function signals "no complete packet" by returning an empty `QByteArray`;
since a completed packet is never empty (the `!m_buffer.isEmpty()` guard),
that sentinel is modelled as `none`. -/
def SLIPDecoder.processByte (d : SLIPDecoder) (b : Nat) : SLIPDecoder × Option (List Nat) :=
  if b = SLIPCodec.FRAME_END then
    if d.packetStarted && !d.buffer.isEmpty then (d.reset, some d.buffer)
    else ({ d with packetStarted := true, buffer := [] }, none)
  else if b = SLIPCodec.FRAME_ESCAPE then
    if !d.packetStarted then (d, none)
    else ({ d with inEscape := true }, none)
  else
    if !d.packetStarted then (d, none)
    else if d.inEscape then
      ({ d with inEscape := false, buffer := d.buffer ++ [SLIPCodec.unescapeByte b] }, none)
    else ({ d with buffer := d.buffer ++ [b] }, none)

/-- `SLIPDecoder::process` (SLIPCodec.cpp, lines 87-97): feed each byte in
order, collecting the completed packets. -/
def SLIPDecoder.process (d : SLIPDecoder) : List Nat → SLIPDecoder × List (List Nat)
  | [] => (d, [])
  | b :: rest =>
    let step := d.processByte b
    let tail := step.1.process rest
    match step.2 with
    | some p => (tail.1, p :: tail.2)
    | none => (tail.1, tail.2)

/-- Little-endian 16-bit read, `readLE16` (ESP32Protocol.cpp, lines 26-30).
Out-of-range indices default to 0; `parse` only reads in range. -/
def readLE16 (data : List Nat) (off : Nat) : Nat :=
  data.getD off 0 ||| (data.getD (off + 1) 0 <<< 8)

/-- Little-endian 32-bit read, `readLE32` (ESP32Protocol.cpp, lines 33-39). -/
def readLE32 (data : List Nat) (off : Nat) : Nat :=
  data.getD off 0 ||| (data.getD (off + 1) 0 <<< 8) |||
  (data.getD (off + 2) 0 <<< 16) ||| (data.getD (off + 3) 0 <<< 24)

/-- `ESP32Response` (ESP32Protocol.h, lines 51-68). -/
structure ESP32Response where
  direction : Nat
  command : Nat
  size : Nat
  value : Nat
  data : List Nat
  status : Nat
  error : Nat
deriving DecidableEq

/-- `ESP32Response::isSuccess` (ESP32Protocol.h, line 60):
`status == 0 && error == 0`. -/
def ESP32Response.isSuccess (r : ESP32Response) : Bool :=
  r.status == 0 && r.error == 0

/-- `ESP32Response::parse` (ESP32Protocol.cpp, lines 69-98).  Frames shorter
than 8 bytes or not starting with direction byte `0x01` yield `nullopt`.
`data` is `packet.mid(8, dataEndIndex - 8)` with
`dataEndIndex = qMin(8 + size, packet.size())`; `status`/`error` default to 0
when fewer than 1/2 data bytes are present. -/
def ESP32Response.parse (packet : List Nat) : Option ESP32Response :=
  if packet.length < 8 then none
  else
    let direction := packet.getD 0 0
    if direction ≠ 0x01 then none
    else
      let size := readLE16 packet 2
      let dataEndIndex := min (8 + size) packet.length
      let data := if 8 < packet.length then (packet.drop 8).take (dataEndIndex - 8) else []
      some { direction := direction
             command := packet.getD 1 0
             size := size
             value := readLE32 packet 4
             data := data
             status := if 1 ≤ data.length then data.getD 0 0 else 0
             error := if 2 ≤ data.length then data.getD 1 0 else 0 }

namespace ESP32Protocol

/-- `ESP32Protocol::FLASH_BLOCK_SIZE` (ESP32Protocol.h, line 79). -/
def FLASH_BLOCK_SIZE : Nat := 1024

end ESP32Protocol

namespace FirmwareFile

/-- The merged-binary filename test of the single-file `FirmwareFile`
constructor (FirmwareFile.cpp, lines 19-23): the lower-cased filename
contains one of "merged", "factory", "combined", "full".
`QString::contains` is contiguous-substring containment, i.e. `<:+:`. -/
def isMergedBinary (fileName : List Char) : Prop :=
  "merged".toList <:+: fileName.map Char.toLower ∨
  "factory".toList <:+: fileName.map Char.toLower ∨
  "combined".toList <:+: fileName.map Char.toLower ∨
  "full".toList <:+: fileName.map Char.toLower

instance (fileName : List Char) : Decidable (isMergedBinary fileName) := by
  unfold isMergedBinary; infer_instance

/-- The offset chosen by the single-file `FirmwareFile` constructor
(FirmwareFile.cpp, line 27): `0x0000` for a merged binary, else `0x10000`. -/
def singleFileOffset (fileName : List Char) : Nat :=
  if isMergedBinary fileName then 0x0000 else 0x10000

end FirmwareFile

/-- A `FirmwareImage` (FirmwareFile.h): payload bytes with a target flash
offset.  The display path is irrelevant to the verified claims. -/
structure Image where
  offset : Nat
  data : List Nat
deriving DecidableEq

/-- `FirmwareImage::size()`: payload length. -/
def Image.size (img : Image) : Nat := img.data.length

/-- `numBlocks = (image.size() + blockSize - 1) / blockSize`
(FlashingService.cpp, line 161) with `blockSize = FLASH_BLOCK_SIZE`. -/
def Image.numBlocks (img : Image) : Nat :=
  (img.size + ESP32Protocol.FLASH_BLOCK_SIZE - 1) / ESP32Protocol.FLASH_BLOCK_SIZE

/-- The block slice sent for `blockNum` (FlashingService.cpp, lines 178-185):
`image.data.mid(start, end - start)` with `start = blockNum * blockSize` and
`end = qMin(start + blockSize, image.size())`, right-padded with `0xFF`
to `blockSize` when shorter. -/
def Image.blockData (img : Image) (blockNum : Nat) : List Nat :=
  let raw := (img.data.drop (blockNum * ESP32Protocol.FLASH_BLOCK_SIZE)).take
    ESP32Protocol.FLASH_BLOCK_SIZE
  if raw.length < ESP32Protocol.FLASH_BLOCK_SIZE then
    raw ++ List.replicate (ESP32Protocol.FLASH_BLOCK_SIZE - raw.length) 0xFF
  else raw

/-- `FlashingStateType` (FlashingState.h, lines 14-25). -/
inductive FlashingStateType
  | idle | connecting | syncing | changingBaudRate | erasing
  | flashing | verifying | restarting | complete | error
deriving DecidableEq

/-- `FlashingErrorType` (FlashingState.h, lines 30-44). -/
inductive FlashingErrorType
  | none | portNotFound | connectionFailed | syncFailed | baudChangeTimeout
  | flashBeginFailed | flashDataFailed | flashEndFailed | checksumMismatch
  | timeout | invalidFirmware | portDisconnected | cancelled
deriving DecidableEq

/-- `FlashingState` (FlashingState.h, lines 49-54).  The C++ `double
progress` is modelled as an exact rational; the `QString errorMessage` is
not modelled (the verified claims depend only on type, progress, error type
and `errorData`). -/
structure FlashingState where
  type : FlashingStateType := FlashingStateType.idle
  progress : ℚ := 0
  errorType : FlashingErrorType := FlashingErrorType.none
  errorData : Nat := 0
deriving DecidableEq

/-- `FlashingState::erasing()` (FlashingState.h). -/
def FlashingState.erasing : FlashingState := { type := FlashingStateType.erasing }

/-- `FlashingState::flashing(progress)` (FlashingState.h). -/
def FlashingState.flashing (p : ℚ) : FlashingState :=
  { type := FlashingStateType.flashing, progress := p }

/-- `FlashingState::verifying()` (FlashingState.h). -/
def FlashingState.verifying : FlashingState := { type := FlashingStateType.verifying }

/-- `FlashingState::restarting()` (FlashingState.h). -/
def FlashingState.restarting : FlashingState := { type := FlashingStateType.restarting }

/-- `FlashingState::complete()` (FlashingState.h). -/
def FlashingState.complete : FlashingState := { type := FlashingStateType.complete }

/-- `FlashingState::error(type, message, data)` (FlashingState.h, lines
94-100), message omitted. -/
def FlashingState.mkError (t : FlashingErrorType) (d : Nat) : FlashingState :=
  { type := FlashingStateType.error, errorType := t, errorData := d }

namespace FlashingService

/-- `FlashingService::SYNC_RETRIES` (FlashingService.h, line 121). -/
def SYNC_RETRIES : Nat := 20

/-- The exceptions that can escape the per-image flashing loop of
`runFlashing` (FlashingService.cpp, lines 151-201) and reach its catch
block.  Each constructor corresponds to a `throw std::runtime_error` site;
the literal message texts are recorded with the constructors below. -/
inductive FlashExn
  /-- thrown with message "Cancelled" (lines 157, 175, 433) -/
  | cancelled
  /-- thrown with message "Flash begin failed: status=S" (line 378) -/
  | flashBeginFailed (status : Nat)
  /-- thrown with message "Flash data failed at block N: status=S" (line 392) -/
  | flashDataFailed (block status : Nat)
deriving DecidableEq

/-- `errorMsg.contains("Cancelled")` for each possible exception message.
Only the literal message "Cancelled" contains it; the flash begin/data
messages consist of fixed letters plus decimal digits, so the test is
constant per throw site. -/
def FlashExn.msgHasCancelled : FlashExn → Bool
  | .cancelled => true
  | _ => false

/-- `errorMsg.contains("sync")` (case-sensitive) for each possible
exception message: none of "Cancelled", "Flash begin failed: status=S",
"Flash data failed at block N: status=S" contains the lower-case "sync". -/
def FlashExn.msgHasSync : FlashExn → Bool
  | _ => false

/-- `errorMsg.contains("Cannot open") || errorMsg.contains("reopen")` for
each possible exception message: none of them contains either pattern. -/
def FlashExn.msgHasOpen : FlashExn → Bool
  | _ => false

/-- The catch block of `runFlashing` (FlashingService.cpp, lines 217-233):
classify the caught exception into the terminal error state.
`flag` is the value of `m_isCancelled` at catch time. -/
def classifyCaught (flag : Bool) (e : FlashExn) : FlashingState :=
  if flag || e.msgHasCancelled then FlashingState.mkError FlashingErrorType.cancelled 0
  else if e.msgHasSync then FlashingState.mkError FlashingErrorType.syncFailed SYNC_RETRIES
  else if e.msgHasOpen then FlashingState.mkError FlashingErrorType.connectionFailed 0
  else FlashingState.mkError FlashingErrorType.connectionFailed 0

/-- The flash-control packets written by the orchestrator during the
per-image loop and the finish step, identified by the builder call
(ESP32Protocol.cpp): `buildFlashBeginCommand(size, numBlocks, blockSize,
offset)`, `buildFlashDataCommand(blockData, seq)`,
`buildFlashEndCommand(reboot)` (whose payload word is 0 when rebooting). -/
inductive Packet
  | flashBegin (size numBlocks blockSize offset : Nat)
  | flashData (block : List Nat) (seq : Nat)
  | flashEnd (stayFlag : Nat)
deriving DecidableEq

/-- Observable actions of the worker during `runFlashing`:
state events emitted to the observer, packet writes to the transport,
polls of the atomic `m_isCancelled` flag (with the value observed),
closing the transport in `cleanup`, and the DTR/RTS hard reset. -/
inductive Ev
  | emit (s : FlashingState)
  | write (p : Packet)
  | poll (observed : Bool)
  | closeTransport
  | hardReset
deriving DecidableEq

/-- The device model: status/error byte pairs of the parsed responses the
loader returns to `FLASH_BEGIN` (per image index) and `FLASH_DATA` (per
image index and block number).  `waitForResponse` is abstracted as
returning the matching parsed response after one cancellation poll; the
`FLASH_END` response never influences behaviour (`reboot` is always true
in `runFlashing`, so any failure or timeout there is swallowed). -/
structure Oracle where
  beginResp : Nat → Nat × Nat
  dataResp : Nat → Nat → Nat × Nat

/-- `overallProgress` (FlashingService.cpp, lines 187-189):
`(bytesFlashed + (blockNum + 1) / numBlocks * image.size()) / totalBytes`,
in exact rational arithmetic. -/
def overallProgress (bytesFlashed imgSize total : Nat) (blockNum numBlocks : Nat) : ℚ :=
  ((bytesFlashed : ℚ) + ((blockNum : ℚ) + 1) / (numBlocks : ℚ) * (imgSize : ℚ)) / (total : ℚ)

/-- The inner block loop of `runFlashing` (FlashingService.cpp, lines
173-198) over the remaining block numbers.  `cancel` gives the value of
`m_isCancelled` at the k-th poll; `k` counts polls so far.  Per block the
code polls the flag, emits `Flashing(overall)`, writes the `FLASH_DATA`
packet, polls again inside `waitForResponse`, and checks
`response.isSuccess()`, throwing on failure (line 391-396). -/
def runBlocks (ora : Oracle) (cancel : Nat → Bool) (imgIdx : Nat) (img : Image)
    (bytesFlashed total : Nat) :
    List Nat → Nat → List Ev × Option FlashExn × Nat
  | [], k => ([], none, k)
  | blockNum :: rest, k =>
    if cancel k then ([Ev.poll true], some FlashExn.cancelled, k + 1)
    else
      let evs := [Ev.poll false,
        Ev.emit (FlashingState.flashing
          (overallProgress bytesFlashed img.size total blockNum img.numBlocks)),
        Ev.write (Packet.flashData (img.blockData blockNum) blockNum)]
      if cancel (k + 1) then (evs ++ [Ev.poll true], some FlashExn.cancelled, k + 2)
      else
        let resp := ora.dataResp imgIdx blockNum
        if resp.1 == 0 && resp.2 == 0 then
          let r := runBlocks ora cancel imgIdx img bytesFlashed total rest (k + 2)
          (evs ++ Ev.poll false :: r.1, r.2.1, r.2.2)
        else (evs ++ [Ev.poll false], some (FlashExn.flashDataFailed blockNum resp.1), k + 2)

/-- The per-image loop of `runFlashing` (FlashingService.cpp, lines
155-201): poll the flag (line 156), emit `Erasing`, write `FLASH_BEGIN`
and await its response (poll, then `isSuccess` check, lines 370-382),
then stream the blocks, then continue with `bytesFlashed += image.size()`. -/
def runImages (ora : Oracle) (cancel : Nat → Bool) (total : Nat) :
    Nat → List Image → Nat → Nat → List Ev × Option FlashExn × Nat
  | _, [], _, k => ([], none, k)
  | imgIdx, img :: rest, bytesFlashed, k =>
    if cancel k then ([Ev.poll true], some FlashExn.cancelled, k + 1)
    else
      let evs := [Ev.poll false, Ev.emit FlashingState.erasing,
        Ev.write (Packet.flashBegin img.size img.numBlocks
          ESP32Protocol.FLASH_BLOCK_SIZE img.offset)]
      if cancel (k + 1) then (evs ++ [Ev.poll true], some FlashExn.cancelled, k + 2)
      else
        let resp := ora.beginResp imgIdx
        if resp.1 == 0 && resp.2 == 0 then
          let rb := runBlocks ora cancel imgIdx img bytesFlashed total
            (List.range img.numBlocks) (k + 2)
          match rb.2.1 with
          | some e => (evs ++ Ev.poll false :: rb.1, some e, rb.2.2)
          | none =>
            let ri := runImages ora cancel total (imgIdx + 1) rest
              (bytesFlashed + img.size) rb.2.2
            (evs ++ Ev.poll false :: rb.1 ++ ri.1, ri.2.1, ri.2.2)
        else (evs ++ [Ev.poll false], some (FlashExn.flashBeginFailed resp.1), k + 2)

/-- The flashing phase of `runFlashing` (FlashingService.cpp, lines
151-233), from the per-image loop to termination.  On normal loop exit the
code emits `Verifying` and `Restarting`, writes `FLASH_END` with stay-flag
0 (`reboot = true`), polls the flag once inside the 2 s `waitForResponse`
(any failure, timeout or cancellation there is swallowed because
`reboot` is true, lines 405-416), hard-resets USB-JTAG-Serial devices,
emits `Complete` and then closes the transport in `cleanup`.  On an
exception the catch block closes the transport first and then emits the
classified error state. -/
def runFlash (ora : Oracle) (cancel : Nat → Bool) (imgs : List Image)
    (isUSBJTAGSerial : Bool) : List Ev :=
  let total := (imgs.map Image.size).sum
  let r := runImages ora cancel total 0 imgs 0 0
  match r.2.1 with
  | some e => r.1 ++ [Ev.closeTransport, Ev.emit (classifyCaught (cancel r.2.2) e)]
  | none =>
    r.1 ++ [Ev.emit FlashingState.verifying, Ev.emit FlashingState.restarting,
        Ev.write (Packet.flashEnd 0), Ev.poll (cancel r.2.2)] ++
      (if isUSBJTAGSerial then [Ev.hardReset] else []) ++
      [Ev.emit FlashingState.complete, Ev.closeTransport]

/-- The sequence of states emitted over a trace, in order. -/
def emittedStates (tr : List Ev) : List FlashingState :=
  tr.filterMap fun e => match e with
    | Ev.emit s => some s
    | _ => none

/-- The last state emitted over a trace (the terminal event). -/
def lastEmitted (tr : List Ev) : Option FlashingState :=
  (emittedStates tr).getLast?

/-- The `FLASH_DATA` writes of a trace: block payload and sequence number,
in order. -/
def flashDataWrites (tr : List Ev) : List (List Nat × Nat) :=
  tr.filterMap fun e => match e with
    | Ev.write (Packet.flashData blk seq) => some (blk, seq)
    | _ => none

/-- The progress values carried by the `Flashing` events of a trace. -/
def progressValues (tr : List Ev) : List ℚ :=
  tr.filterMap fun e => match e with
    | Ev.emit s => if s.type = FlashingStateType.flashing then some s.progress else none
    | _ => none

/-- The trace of the per-image loop in a run where every response is
successful and cancellation is never requested (proved equal to the
loop trace under those hypotheses below). -/
def okImagesTrace (total : Nat) : List Image → Nat → List Ev
  | [], _ => []
  | img :: rest, bytesFlashed =>
    [Ev.poll false, Ev.emit FlashingState.erasing,
      Ev.write (Packet.flashBegin img.size img.numBlocks
        ESP32Protocol.FLASH_BLOCK_SIZE img.offset), Ev.poll false] ++
    (List.range img.numBlocks).flatMap (fun b =>
      [Ev.poll false,
       Ev.emit (FlashingState.flashing
         (overallProgress bytesFlashed img.size total b img.numBlocks)),
       Ev.write (Packet.flashData (img.blockData b) b), Ev.poll false]) ++
    okImagesTrace total rest (bytesFlashed + img.size)

/-- The progress values of a successful run, image by image. -/
def okProgress (total : Nat) : List Image → Nat → List ℚ
  | [], _ => []
  | img :: rest, bytesFlashed =>
    (List.range img.numBlocks).map
      (fun b => overallProgress bytesFlashed img.size total b img.numBlocks) ++
    okProgress total rest (bytesFlashed + img.size)

/-- Test fixture: a loader that answers every flash-control command with a
success response. -/
def allOkOracle : Oracle := ⟨fun _ => (0, 0), fun _ _ => (0, 0)⟩

/-- Test fixture: a loader that answers `FLASH_DATA` for block 3 with
status byte 1 (scenario 5 of the specification) and everything else with
success. -/
def blockThreeFails : Oracle :=
  ⟨fun _ => (0, 0), fun _ b => if b == 3 then (1, 0) else (0, 0)⟩

end FlashingService

namespace SLIPCodec

theorem processByte_escaped (buf : List Nat) (b : Nat) :
    SLIPDecoder.process ⟨buf, false, true⟩ (escapeByte b) = (⟨buf ++ [b], false, true⟩, []) := by
  by_cases hE : b = FRAME_END
  · subst hE
    simp [escapeByte, SLIPDecoder.process, SLIPDecoder.processByte, SLIPDecoder.reset,
      FRAME_END, FRAME_ESCAPE, ESCAPED_END, ESCAPED_ESCAPE, unescapeByte]
  · by_cases hX : b = FRAME_ESCAPE
    · subst hX
      simp [escapeByte, SLIPDecoder.process, SLIPDecoder.processByte, SLIPDecoder.reset,
        FRAME_END, FRAME_ESCAPE, ESCAPED_END, ESCAPED_ESCAPE, unescapeByte]
    · simp only [FRAME_END, FRAME_ESCAPE] at hE hX
      simp [escapeByte, SLIPDecoder.process, SLIPDecoder.processByte, hE, hX,
        FRAME_END, FRAME_ESCAPE]

theorem process_append (d : SLIPDecoder) (l₁ l₂ : List Nat) :
    SLIPDecoder.process d (l₁ ++ l₂) =
      ((SLIPDecoder.process (SLIPDecoder.process d l₁).1 l₂).1,
       (SLIPDecoder.process d l₁).2 ++ (SLIPDecoder.process (SLIPDecoder.process d l₁).1 l₂).2) := by
  induction l₁ generalizing d with
  | nil => simp [SLIPDecoder.process]
  | cons b rest ih =>
    simp only [List.cons_append, SLIPDecoder.process]
    rcases h : (d.processByte b) with ⟨d', pk⟩
    rcases pk with _ | p <;> simp [ih d']

theorem process_body (x : List Nat) :
    ∀ buf : List Nat,
    SLIPDecoder.process ⟨buf, false, true⟩ (x.flatMap escapeByte) =
      (⟨buf ++ x, false, true⟩, []) := by
  induction x with
  | nil => intro buf; simp [SLIPDecoder.process]
  | cons b rest ih =>
    intro buf
    rw [List.flatMap_cons, process_append, processByte_escaped]
    simp [ih (buf ++ [b])]

/-- C2 as written fails at the empty sequence: `encode(∅) = [C0, C0]`, and
the streaming decoder treats the second `C0` as another frame start because
its buffer is empty (`SLIPDecoder::processByte`, lines 102-110), so zero
frames are produced rather than exactly one. -/
theorem claim_C2_counterexample :
    (SLIPDecoder.process SLIPDecoder.init (encode [])).2 = [] ∧
    (SLIPDecoder.process SLIPDecoder.init (encode [])).2 ≠ [([] : List Nat)] := by
  decide

/-- C2 (amended to non-empty sequences): for every non-empty byte sequence
`x`, feeding `encode(x)` byte by byte into a freshly reset streaming SLIP
decoder yields exactly one complete frame, and that frame equals `x`. -/
theorem claim_C2_streaming_roundtrip (x : List Nat) (hx : x ≠ []) :
    (SLIPDecoder.process SLIPDecoder.init (encode x)).2 = [x] := by
  have h0 : SLIPDecoder.init.processByte FRAME_END = (⟨[], false, true⟩, none) := by
    simp [SLIPDecoder.processByte, SLIPDecoder.init]
  have h2 : SLIPDecoder.process (⟨x, false, true⟩ : SLIPDecoder) [FRAME_END] =
      (SLIPDecoder.reset ⟨x, false, true⟩, [x]) := by
    simp [SLIPDecoder.process, SLIPDecoder.processByte, List.isEmpty_iff, hx]
  show (SLIPDecoder.process SLIPDecoder.init
    (FRAME_END :: (x.flatMap escapeByte ++ [FRAME_END]))).2 = [x]
  rw [SLIPDecoder.process, h0]
  simp only [process_append, process_body x [], List.nil_append, h2]

/-- Closed witness for the amended C2 at a concrete non-empty input
containing both escapable bytes. -/
theorem claim_C2_witness :
    ([0xC0, 0xDB, 0x05] : List Nat) ≠ [] ∧
    (SLIPDecoder.process SLIPDecoder.init (encode [0xC0, 0xDB, 0x05])).2 =
      [[0xC0, 0xDB, 0x05]] :=
  ⟨by decide, claim_C2_streaming_roundtrip [0xC0, 0xDB, 0x05] (by decide)⟩

theorem decodeGo_skip (junk : List Nat) (hj : FRAME_END ∉ junk) :
    ∀ (rest decoded : List Nat) (esc : Bool),
    decodeGo (junk ++ rest) decoded esc false = decodeGo rest decoded esc false := by
  induction junk with
  | nil => intro rest decoded esc; rfl
  | cons b js ih =>
    intro rest decoded esc
    have hb : b ≠ FRAME_END := fun h => hj (h ▸ List.mem_cons_self b js)
    have hjs : FRAME_END ∉ js := fun h => hj (List.mem_cons_of_mem b h)
    simp only [List.cons_append, decodeGo, if_neg hb]
    simpa using ih hjs rest decoded esc

theorem decodeGo_body (x : List Nat) :
    ∀ (decoded rest : List Nat),
    decodeGo (x.flatMap escapeByte ++ FRAME_END :: rest) decoded false true =
      (if decoded ++ x = [] then decodeGo rest [] false true else decoded ++ x) := by
  induction x with
  | nil =>
    intro decoded rest
    rcases decoded with _ | ⟨d, ds⟩ <;>
      simp [decodeGo, List.isEmpty_iff]
  | cons b bs ih =>
    intro decoded rest
    have happ : decoded ++ b :: bs = (decoded ++ [b]) ++ bs := by simp
    by_cases hE : b = FRAME_END
    · subst hE
      have : escapeByte FRAME_END = [FRAME_ESCAPE, ESCAPED_END] := by
        simp [escapeByte]
      rw [List.flatMap_cons, this]
      have hne : (FRAME_ESCAPE : Nat) ≠ FRAME_END := by decide
      have hne2 : (ESCAPED_END : Nat) ≠ FRAME_END := by decide
      simp only [List.cons_append, List.append_assoc, decodeGo, if_neg hne, if_neg hne2,
        Bool.not_false, if_pos rfl, Bool.false_eq_true, if_neg, reduceIte]
      rw [show unescapeByte ESCAPED_END = FRAME_END from by decide]
      rw [happ]
      exact ih (decoded ++ [FRAME_END]) rest
    · by_cases hX : b = FRAME_ESCAPE
      · subst hX
        have : escapeByte FRAME_ESCAPE = [FRAME_ESCAPE, ESCAPED_ESCAPE] := by
          simp [escapeByte, FRAME_END, FRAME_ESCAPE]
        rw [List.flatMap_cons, this]
        have hne : (FRAME_ESCAPE : Nat) ≠ FRAME_END := by decide
        have hne2 : (ESCAPED_ESCAPE : Nat) ≠ FRAME_END := by decide
        simp only [List.cons_append, List.append_assoc, decodeGo, if_neg hne, if_neg hne2,
          Bool.not_false, if_pos rfl, Bool.false_eq_true, if_neg, reduceIte]
        rw [show unescapeByte ESCAPED_ESCAPE = FRAME_ESCAPE from by decide]
        rw [happ]
        exact ih (decoded ++ [FRAME_ESCAPE]) rest
      · have : escapeByte b = [b] := by simp [escapeByte, hE, hX]
        rw [List.flatMap_cons, this]
        simp only [List.cons_append, List.append_assoc, decodeGo, if_neg hE, if_neg hX,
          Bool.not_false, Bool.false_eq_true, if_neg, reduceIte]
        rw [happ]
        exact ih (decoded ++ [b]) rest

/-- C3: the one-shot decoder inverts `encode` on every byte sequence
(including the empty one), and the four edge-case encodings from the
specification hold. -/
theorem claim_C3_oneshot_roundtrip :
    (∀ x : List Nat, decode (encode x) = x) ∧
    encode [] = [0xC0, 0xC0] ∧
    encode [0xC0] = [0xC0, 0xDB, 0xDC, 0xC0] ∧
    encode [0xDB] = [0xC0, 0xDB, 0xDD, 0xC0] ∧
    encode [0xC0, 0xDB] = [0xC0, 0xDB, 0xDC, 0xDB, 0xDD, 0xC0] := by
  refine ⟨fun x => ?_, by decide, by decide, by decide, by decide⟩
  show decodeGo (FRAME_END :: (x.flatMap escapeByte ++ [FRAME_END])) [] false false = x
  have h0 : decodeGo (FRAME_END :: (x.flatMap escapeByte ++ [FRAME_END])) [] false false =
      decodeGo (x.flatMap escapeByte ++ [FRAME_END]) [] false true := by
    simp [decodeGo]
  rw [h0, decodeGo_body x [] []]
  rcases x with _ | ⟨b, bs⟩ <;> simp [decodeGo]

theorem decodeGo_unterminated (body : List Nat) (hb : FRAME_END ∉ body) :
    ∀ (decoded : List Nat) (esc : Bool),
    decodeGo body decoded esc true = decodeGo (body ++ [FRAME_END]) decoded esc true := by
  induction body with
  | nil =>
    intro decoded esc
    rcases decoded with _ | ⟨d, ds⟩ <;> simp [decodeGo, List.isEmpty_iff]
  | cons b bs ih =>
    intro decoded esc
    have hbe : b ≠ FRAME_END := fun h => hb (h ▸ List.mem_cons_self b bs)
    have hbs : FRAME_END ∉ bs := fun h => hb (List.mem_cons_of_mem b h)
    rcases esc with _ | _
    · by_cases hX : b = FRAME_ESCAPE
      · subst hX
        simp only [List.cons_append, decodeGo, if_neg hbe, Bool.not_false,
          Bool.false_eq_true, if_neg, reduceIte, if_pos rfl]
        exact ih hbs decoded true
      · simp only [List.cons_append, decodeGo, if_neg hbe, if_neg hX, Bool.not_false,
          Bool.false_eq_true, if_neg, reduceIte]
        exact ih hbs (decoded ++ [b]) false
    · simp only [List.cons_append, decodeGo, if_neg hbe, Bool.not_false, reduceIte]
      exact ih hbs (decoded ++ [unescapeByte b]) false

/-- C10: (1) the one-shot decoder returns only the first complete frame of
its input — leading bytes before the first END are discarded and everything
after the frame's closing END is ignored; (2) an input that starts a frame
and never closes it decodes to exactly what the properly closed frame would
decode to (the bytes accumulated so far — the input is not rejected), shown
together with a concrete unterminated example; (3) an input containing no
END at all decodes to the empty sequence. -/
theorem claim_C10_oneshot_partial :
    (∀ junk x rest : List Nat, FRAME_END ∉ junk → x ≠ [] →
      decode (junk ++ encode x ++ rest) = x) ∧
    (∀ body : List Nat, FRAME_END ∉ body →
      decode (FRAME_END :: body) = decode (FRAME_END :: body ++ [FRAME_END])) ∧
    decode [0xC0, 0xDB, 0xDC, 0x41, 0x42] = [0xC0, 0x41, 0x42] ∧
    (∀ s : List Nat, FRAME_END ∉ s → decode s = []) := by
  refine ⟨fun junk x rest hj hx => ?_, fun body hb => ?_, by decide, fun s hs => ?_⟩
  · show decodeGo (junk ++ (FRAME_END :: (x.flatMap escapeByte ++ [FRAME_END])) ++ rest)
      [] false false = x
    rw [List.append_assoc, decodeGo_skip junk hj]
    have h0 : decodeGo ((FRAME_END :: (x.flatMap escapeByte ++ [FRAME_END])) ++ rest)
        [] false false =
        decodeGo (x.flatMap escapeByte ++ FRAME_END :: rest) [] false true := by
      simp [decodeGo]
    rw [h0, decodeGo_body x [] rest]
    simp [hx]
  · show decodeGo (FRAME_END :: body) [] false false =
      decodeGo (FRAME_END :: body ++ [FRAME_END]) [] false false
    have h0 : ∀ r, decodeGo (FRAME_END :: r) [] false false = decodeGo r [] false true := by
      intro r; simp [decodeGo]
    rw [List.cons_append, h0, h0]
    exact decodeGo_unterminated body hb [] false
  · show decodeGo s [] false false = []
    have := decodeGo_skip s hs [] [] false
    simpa [decodeGo] using this

/-- Closed witness for C10 at concrete inputs exercising each hypothesis:
junk before the frame, trailing bytes after the frame, an unterminated
frame, and an END-free input. -/
theorem claim_C10_witness :
    ((0xC0 : Nat) ∉ [0x11, 0x22] ∧ ([0x33, 0xC0] : List Nat) ≠ [] ∧
      decode ([0x11, 0x22] ++ encode [0x33, 0xC0] ++ [0x77, 0xC0, 0x88]) = [0x33, 0xC0]) ∧
    ((0xC0 : Nat) ∉ [0x41, 0xDB] ∧
      decode [0xC0, 0x41, 0xDB] = decode (0xC0 :: [0x41, 0xDB] ++ [0xC0])) ∧
    ((0xC0 : Nat) ∉ [0x41, 0xDB, 0x42] ∧ decode [0x41, 0xDB, 0x42] = []) := by
  refine ⟨⟨by decide, by decide, ?_⟩, ⟨by decide, ?_⟩, ⟨by decide, ?_⟩⟩
  · exact claim_C10_oneshot_partial.1 [0x11, 0x22] [0x33, 0xC0] [0x77, 0xC0, 0x88]
      (by decide) (by decide)
  · exact claim_C10_oneshot_partial.2.1 [0x41, 0xDB] (by decide)
  · exact claim_C10_oneshot_partial.2.2.2 [0x41, 0xDB, 0x42] (by decide)

end SLIPCodec

theorem ESP32Response.parse_eq (packet : List Nat) (h8 : 8 ≤ packet.length)
    (h1 : packet.getD 0 0 = 0x01) :
    ESP32Response.parse packet = some
      { direction := packet.getD 0 0
        command := packet.getD 1 0
        size := readLE16 packet 2
        value := readLE32 packet 4
        data := (packet.drop 8).take (readLE16 packet 2)
        status := if 1 ≤ ((packet.drop 8).take (readLE16 packet 2)).length then
            ((packet.drop 8).take (readLE16 packet 2)).getD 0 0 else 0
        error := if 2 ≤ ((packet.drop 8).take (readLE16 packet 2)).length then
            ((packet.drop 8).take (readLE16 packet 2)).getD 1 0 else 0 } := by
  have hlt : ¬ packet.length < 8 := not_lt.mpr h8
  have hdir : ¬ (packet.getD 0 0 ≠ 0x01) := fun h => h h1
  have hdata : (if 8 < packet.length then
      (packet.drop 8).take (min (8 + readLE16 packet 2) packet.length - 8) else []) =
      (packet.drop 8).take (readLE16 packet 2) := by
    by_cases h : 8 < packet.length
    · rw [if_pos h]
      have hlen : (packet.drop 8).length = packet.length - 8 := List.length_drop 8 packet
      rcases le_or_lt (readLE16 packet 2) (packet.length - 8) with hle | hgt
      · congr 1
        omega
      · have he : min (8 + readLE16 packet 2) packet.length - 8 = packet.length - 8 := by
          omega
        rw [he, List.take_of_length_le (le_of_eq hlen),
          List.take_of_length_le (by omega)]
    · have h8' : packet.length = 8 := by omega
      rw [if_neg h, List.drop_eq_nil_of_le (by omega)]
      simp
  simp only [ESP32Response.parse, if_neg hlt, if_neg hdir, hdata]

/-- C4: for every frame of length ≥ 8 whose first byte is `0x01`, parsing
returns opcode, size, value at the documented little-endian positions, the
data section is bytes `[8, 8+size)` truncated to the frame, `status` and
`error` are the first and second data bytes (when present), and `isSuccess`
holds iff both are 0; the two concrete frames from the specification parse
as stated; frames not beginning with `0x01` do not parse as responses. -/
theorem claim_C4_response_parse :
    (∀ packet : List Nat, 8 ≤ packet.length → packet.getD 0 0 = 0x01 →
      ∃ r : ESP32Response, ESP32Response.parse packet = some r ∧
        r.command = packet.getD 1 0 ∧
        r.size = readLE16 packet 2 ∧
        r.value = readLE32 packet 4 ∧
        r.data = (packet.drop 8).take r.size ∧
        (1 ≤ r.data.length → r.status = r.data.getD 0 0) ∧
        (2 ≤ r.data.length → r.error = r.data.getD 1 0) ∧
        (r.isSuccess = true ↔ (r.status = 0 ∧ r.error = 0))) ∧
    (∃ r : ESP32Response,
      ESP32Response.parse [0x01, 0x08, 0x04, 0x00, 0xAA, 0xBB, 0xCC, 0xDD, 0x00, 0x00] =
        some r ∧
      r.command = 0x08 ∧ r.size = 4 ∧ r.value = 0xDDCCBBAA ∧ r.status = 0 ∧
      r.error = 0 ∧ r.isSuccess = true) ∧
    (∃ r : ESP32Response,
      ESP32Response.parse [0x01, 0x08, 0x04, 0x00, 0xAA, 0xBB, 0xCC, 0xDD, 0x00, 0x05] =
        some r ∧
      r.isSuccess = false ∧ r.error = 5) ∧
    (∀ packet : List Nat, packet.getD 0 0 ≠ 0x01 → ESP32Response.parse packet = none) := by
  refine ⟨fun packet h8 h1 => ?_, ?_, ?_, fun packet h1 => ?_⟩
  · refine ⟨_, ESP32Response.parse_eq packet h8 h1, rfl, rfl, rfl, rfl, ?_, ?_, ?_⟩
    · intro h
      exact if_pos h
    · intro h
      exact if_pos h
    · simp [ESP32Response.isSuccess]
  · exact ⟨⟨1, 8, 4, 0xDDCCBBAA, [0, 0], 0, 0⟩, by decide, rfl, rfl, rfl, rfl, rfl, rfl⟩
  · exact ⟨⟨1, 8, 4, 0xDDCCBBAA, [0, 5], 0, 5⟩, by decide, rfl, rfl⟩
  · by_cases hlen : packet.length < 8
    · simp [ESP32Response.parse, hlen]
    · simp only [List.getD, List.get?_eq_getElem?] at h1
      simp [ESP32Response.parse, hlen, h1]

/-- Closed witness for C4 at the specification's concrete response frame. -/
theorem claim_C4_witness :
    8 ≤ ([0x01, 0x08, 0x04, 0x00, 0xAA, 0xBB, 0xCC, 0xDD, 0x00, 0x00] : List Nat).length ∧
    ∃ r : ESP32Response,
      ESP32Response.parse [0x01, 0x08, 0x04, 0x00, 0xAA, 0xBB, 0xCC, 0xDD, 0x00, 0x00] =
        some r ∧
      r.command = ([0x01, 0x08, 0x04, 0x00, 0xAA, 0xBB, 0xCC, 0xDD, 0x00, 0x00] :
        List Nat).getD 1 0 ∧
      r.size = readLE16 [0x01, 0x08, 0x04, 0x00, 0xAA, 0xBB, 0xCC, 0xDD, 0x00, 0x00] 2 ∧
      r.value = readLE32 [0x01, 0x08, 0x04, 0x00, 0xAA, 0xBB, 0xCC, 0xDD, 0x00, 0x00] 4 ∧
      r.data = (([0x01, 0x08, 0x04, 0x00, 0xAA, 0xBB, 0xCC, 0xDD, 0x00, 0x00] :
        List Nat).drop 8).take r.size ∧
      (1 ≤ r.data.length → r.status = r.data.getD 0 0) ∧
      (2 ≤ r.data.length → r.error = r.data.getD 1 0) ∧
      (r.isSuccess = true ↔ (r.status = 0 ∧ r.error = 0)) :=
  ⟨by decide, claim_C4_response_parse.1
    [0x01, 0x08, 0x04, 0x00, 0xAA, 0xBB, 0xCC, 0xDD, 0x00, 0x00] (by decide) (by decide)⟩

/-- C9: a frame of exactly 8 bytes beginning with `0x01` parses as a
response with no data bytes, so `status` and `error` default to 0
(`ESP32Response::parse`, lines 94-95) and `isSuccess` returns true even
though no status bytes were received — whatever the declared size field
says. -/
theorem claim_C9_empty_data_success (packet : List Nat)
    (h8 : packet.length = 8) (h1 : packet.getD 0 0 = 0x01) :
    ∃ r : ESP32Response, ESP32Response.parse packet = some r ∧
      r.data = [] ∧ r.status = 0 ∧ r.error = 0 ∧ r.isSuccess = true := by
  have hdata : (packet.drop 8).take (readLE16 packet 2) = [] := by
    rw [List.drop_eq_nil_of_le (le_of_eq h8)]
    simp
  refine ⟨_, ESP32Response.parse_eq packet (le_of_eq h8.symm) h1, hdata, ?_, ?_, ?_⟩
  · simp [hdata]
  · simp [hdata]
  · simp [ESP32Response.isSuccess, hdata]

/-- Closed witness for C9: an 8-byte response frame whose declared size
field is nonzero (0x00FF) still parses as a success. -/
theorem claim_C9_witness :
    ([0x01, 0x03, 0xFF, 0x00, 0x00, 0x00, 0x00, 0x00] : List Nat).length = 8 ∧
    readLE16 [0x01, 0x03, 0xFF, 0x00, 0x00, 0x00, 0x00, 0x00] 2 = 0xFF ∧
    ∃ r : ESP32Response,
      ESP32Response.parse [0x01, 0x03, 0xFF, 0x00, 0x00, 0x00, 0x00, 0x00] = some r ∧
      r.data = [] ∧ r.status = 0 ∧ r.error = 0 ∧ r.isSuccess = true :=
  ⟨by decide, by decide, claim_C9_empty_data_success
    [0x01, 0x03, 0xFF, 0x00, 0x00, 0x00, 0x00, 0x00] (by decide) (by decide)⟩

/-- C6: the single-file constructor assigns offset `0x0000` iff the
lower-cased filename contains one of "merged", "factory", "combined",
"full" as a substring, and `0x10000` otherwise; the specification's four
concrete filenames resolve as stated (case-insensitively). -/
theorem claim_C6_offset_inference :
    (∀ name : List Char,
      (FirmwareFile.singleFileOffset name = 0x0000 ↔ FirmwareFile.isMergedBinary name) ∧
      (FirmwareFile.singleFileOffset name = 0x10000 ↔ ¬ FirmwareFile.isMergedBinary name)) ∧
    FirmwareFile.singleFileOffset "firmware.bin".toList = 0x10000 ∧
    FirmwareFile.singleFileOffset "FACTORY.BIN".toList = 0x0000 ∧
    FirmwareFile.singleFileOffset "esp32-merged.bin".toList = 0x0000 ∧
    FirmwareFile.singleFileOffset "factory-something.bin".toList = 0x0000 := by
  refine ⟨fun name => ⟨?_, ?_⟩, by decide, by decide, by decide, by decide⟩ <;>
    · unfold FirmwareFile.singleFileOffset
      split <;> simp_all

namespace FlashingService

theorem classifyCaught_cancelled (flag : Bool) :
    classifyCaught flag FlashExn.cancelled =
      FlashingState.mkError FlashingErrorType.cancelled 0 := by
  cases flag <;> rfl

theorem lastEmitted_error_tail (tr : List Ev) (s : FlashingState) :
    lastEmitted (tr ++ [Ev.closeTransport, Ev.emit s]) = some s := by
  simp [lastEmitted, emittedStates, List.filterMap_append, List.getLast?_append]

theorem runBlocks_fail (ora : Oracle) (cancel : Nat → Bool) (imgIdx : Nat) (img : Image)
    (bf total n st er : Nat) (hcancel : ∀ k, cancel k = false)
    (hfail : ora.dataResp imgIdx n = (st, er)) (hst : st ≠ 0) :
    ∀ (bs₁ bs₂ : List Nat) (k : Nat), (∀ b ∈ bs₁, ora.dataResp imgIdx b = (0, 0)) →
    (runBlocks ora cancel imgIdx img bf total (bs₁ ++ n :: bs₂) k).2.1 =
      some (FlashExn.flashDataFailed n st) := by
  intro bs₁
  induction bs₁ with
  | nil =>
    intro bs₂ k _
    have hb : ((st, er).1 == 0 && (st, er).2 == 0) = false := by
      simp [hst]
    simp [runBlocks, hcancel, hfail, hb]
  | cons b bs ih =>
    intro bs₂ k hok
    have hb := hok b (List.mem_cons_self b bs)
    simp only [List.cons_append, runBlocks, hcancel, Bool.false_eq_true, if_neg, reduceIte,
      hb]
    simpa using ih bs₂ (k + 2) (fun x hx => hok x (List.mem_cons_of_mem b hx))

/-- C1 (as the code actually behaves): when the loader answers `FLASH_DATA`
for block `n` with a nonzero status byte, `flashData` throws
"Flash data failed at block n: status=st" (FlashingService.cpp, lines
391-396), but the catch block of `runFlashing` (lines 217-233) has no
branch for that message and classifies it as `ConnectionFailed` with
`errorData = 0` — not as `FlashDataFailed` with `errorData = n`, which the
claim (and the dead rendering code in FlashingState.h, line 157-158)
prescribe. -/
theorem claim_C1_block_failure_maps_to_connection_failed
    (img : Image) (ora : Oracle) (usb : Bool) (n st er : Nat)
    (hn : n < img.numBlocks) (hbegin : ora.beginResp 0 = (0, 0))
    (hok : ∀ b < n, ora.dataResp 0 b = (0, 0))
    (hfail : ora.dataResp 0 n = (st, er)) (hst : st ≠ 0) :
    lastEmitted (runFlash ora (fun _ => false) [img] usb) =
      some (FlashingState.mkError FlashingErrorType.connectionFailed 0) := by
  obtain ⟨m, hm⟩ : ∃ m, img.numBlocks = n + (m + 1) := ⟨img.numBlocks - n - 1, by omega⟩
  have hrange : List.range img.numBlocks =
      List.range n ++ n :: ((List.range m).map Nat.succ).map (fun x => n + x) := by
    rw [hm, List.range_add, List.range_succ_eq_map]
    simp
  have hbs : ∀ t : Nat, (runBlocks ora (fun _ => false) 0 img 0 t
      (List.range img.numBlocks) 2).2.1 = some (FlashExn.flashDataFailed n st) := by
    intro t
    rw [hrange]
    exact runBlocks_fail ora (fun _ => false) 0 img 0 t n st er
      (fun _ => rfl) hfail hst (List.range n) _ 2
      (fun b hbmem => hok b (List.mem_range.mp hbmem))
  have hex : (runImages ora (fun _ => false) (([img].map Image.size).sum) 0 [img] 0 0).2.1 =
      some (FlashExn.flashDataFailed n st) := by
    simp [runImages, hbegin, hbs]
  show lastEmitted
      (match (runImages ora (fun _ => false) (([img].map Image.size).sum) 0 [img] 0 0).2.1 with
       | some e =>
         (runImages ora (fun _ => false) (([img].map Image.size).sum) 0 [img] 0 0).1 ++
           [Ev.closeTransport, Ev.emit (classifyCaught false e)]
       | none =>
         (runImages ora (fun _ => false) (([img].map Image.size).sum) 0 [img] 0 0).1 ++
             [Ev.emit FlashingState.verifying, Ev.emit FlashingState.restarting,
               Ev.write (Packet.flashEnd 0), Ev.poll false] ++
           (if usb then [Ev.hardReset] else []) ++
           [Ev.emit FlashingState.complete, Ev.closeTransport]) =
      some (FlashingState.mkError FlashingErrorType.connectionFailed 0)
  rw [hex]
  exact lastEmitted_error_tail _ _

/-- Closed witness for C1's divergence theorem: a 3073-byte image (4
blocks) whose block 3 is rejected with status 1, as in scenario 5 of the
specification. -/
theorem claim_C1_witness :
    lastEmitted (runFlash blockThreeFails (fun _ => false)
        [⟨0x10000, List.replicate 3073 0xE9⟩] true) =
      some (FlashingState.mkError FlashingErrorType.connectionFailed 0) :=
  claim_C1_block_failure_maps_to_connection_failed
    ⟨0x10000, List.replicate 3073 0xE9⟩ blockThreeFails true 3 1 0
    (by
      simp only [Image.numBlocks, Image.size, ESP32Protocol.FLASH_BLOCK_SIZE,
        List.length_replicate]
      norm_num)
    rfl (by decide) rfl (by decide)

theorem runBlocks_no_flashEnd (ora : Oracle) (cancel : Nat → Bool) (imgIdx : Nat)
    (img : Image) (bf total : Nat) :
    ∀ (bs : List Nat) (k f : Nat),
    Ev.write (Packet.flashEnd f) ∉ (runBlocks ora cancel imgIdx img bf total bs k).1 := by
  intro bs
  induction bs with
  | nil => intro k f; simp [runBlocks]
  | cons b rest ih =>
    intro k f
    cases h1 : cancel k with
    | true => simp [runBlocks, h1]
    | false =>
      cases h2 : cancel (k + 1) with
      | true => simp [runBlocks, h1, h2]
      | false =>
        cases h3 : ((ora.dataResp imgIdx b).1 == 0 && (ora.dataResp imgIdx b).2 == 0) with
        | true => simp [runBlocks, h1, h2, h3, ih]
        | false => simp [runBlocks, h1, h2, h3]

theorem runImages_no_flashEnd (ora : Oracle) (cancel : Nat → Bool) (total : Nat) :
    ∀ (L : List Image) (imgIdx bf k f : Nat),
    Ev.write (Packet.flashEnd f) ∉ (runImages ora cancel total imgIdx L bf k).1 := by
  intro L
  induction L with
  | nil => intro imgIdx bf k f; simp [runImages]
  | cons img rest ih =>
    intro imgIdx bf k f
    cases h1 : cancel k with
    | true => simp [runImages, h1]
    | false =>
      cases h2 : cancel (k + 1) with
      | true => simp [runImages, h1, h2]
      | false =>
        cases h3 : ((ora.beginResp imgIdx).1 == 0 && (ora.beginResp imgIdx).2 == 0) with
        | true =>
          cases h4 : (runBlocks ora cancel imgIdx img bf total
              (List.range img.numBlocks) (k + 2)).2.1 with
          | some e => simp [runImages, h1, h2, h3, h4, runBlocks_no_flashEnd]
          | none => simp [runImages, h1, h2, h3, h4, runBlocks_no_flashEnd, ih]
        | false => simp [runImages, h1, h2, h3]

theorem runBlocks_poll_true (ora : Oracle) (cancel : Nat → Bool) (imgIdx : Nat)
    (img : Image) (bf total : Nat) :
    ∀ (bs : List Nat) (k : Nat),
    Ev.poll true ∈ (runBlocks ora cancel imgIdx img bf total bs k).1 →
    (runBlocks ora cancel imgIdx img bf total bs k).2.1 = some FlashExn.cancelled := by
  intro bs
  induction bs with
  | nil => intro k h; simp [runBlocks] at h
  | cons b rest ih =>
    intro k h
    cases h1 : cancel k with
    | true => simp [runBlocks, h1]
    | false =>
      cases h2 : cancel (k + 1) with
      | true => simp [runBlocks, h1, h2]
      | false =>
        cases h3 : ((ora.dataResp imgIdx b).1 == 0 && (ora.dataResp imgIdx b).2 == 0) with
        | true =>
          simp only [runBlocks, h1, h2, h3] at h ⊢
          simp at h
          exact ih (k + 2) h
        | false =>
          simp [runBlocks, h1, h2, h3] at h

theorem runImages_poll_true (ora : Oracle) (cancel : Nat → Bool) (total : Nat) :
    ∀ (L : List Image) (imgIdx bf k : Nat),
    Ev.poll true ∈ (runImages ora cancel total imgIdx L bf k).1 →
    (runImages ora cancel total imgIdx L bf k).2.1 = some FlashExn.cancelled := by
  intro L
  induction L with
  | nil => intro imgIdx bf k h; simp [runImages] at h
  | cons img rest ih =>
    intro imgIdx bf k h
    cases h1 : cancel k with
    | true => simp [runImages, h1]
    | false =>
      cases h2 : cancel (k + 1) with
      | true => simp [runImages, h1, h2]
      | false =>
        cases h3 : ((ora.beginResp imgIdx).1 == 0 && (ora.beginResp imgIdx).2 == 0) with
        | true =>
          cases h4 : (runBlocks ora cancel imgIdx img bf total
              (List.range img.numBlocks) (k + 2)).2.1 with
          | some e =>
            simp only [runImages, h1, h2, h3, h4] at h ⊢
            simp at h
            have := runBlocks_poll_true ora cancel imgIdx img bf total
              (List.range img.numBlocks) (k + 2) (by simpa using h)
            rw [h4] at this
            simpa using this
          | none =>
            simp only [runImages, h1, h2, h3, h4] at h ⊢
            simp at h
            rcases h with h | h
            · have := runBlocks_poll_true ora cancel imgIdx img bf total
                (List.range img.numBlocks) (k + 2) h
              rw [h4] at this
              exact Option.noConfusion this
            · exact ih (imgIdx + 1) (bf + img.size) _ h
        | false =>
          simp [runImages, h1, h2, h3] at h

theorem split_around_missing {α : Type} {x : α} {l₁ l₂ P T : List α}
    (h : l₁ ++ x :: l₂ = P ++ x :: T) (hP : x ∉ P) (hT : x ∉ T) : l₁ = P ∧ l₂ = T := by
  rcases List.append_eq_append_iff.mp h with ⟨a, ha1, ha2⟩ | ⟨c, hc1, hc2⟩
  · rcases a with _ | ⟨y, a'⟩
    · simp only [List.append_nil] at ha1
      simp only [List.nil_append] at ha2
      exact ⟨ha1.symm, (List.cons.injEq .. ▸ ha2).2⟩
    · rcases List.cons.injEq .. ▸ ha2 with ⟨hy, _⟩
      exact absurd (ha1 ▸ List.mem_append_right l₁ (hy ▸ List.mem_cons_self y a'))
        hP
  · rcases c with _ | ⟨y, c'⟩
    · simp only [List.append_nil] at hc1
      simp only [List.nil_append] at hc2
      exact ⟨hc1, (List.cons.injEq .. ▸ hc2).2.symm⟩
    · rcases List.cons.injEq .. ▸ hc2 with ⟨hy, hT'⟩
      subst hy
      exact absurd (hT' ▸ List.mem_append_right c' (List.mem_cons_self x l₂)) hT

/-- C8 (amended): if a block-loop iteration or a `waitForResponse` poll
observes the cancellation flag *before the `FLASH_END` packet has been
written*, then the run never writes a `FLASH_END` packet at all, the
transport is closed, and the terminal emitted state is
`Error(Cancelled)`.  (The restriction is forced: the poll inside the
`FLASH_END` wait itself is swallowed — see the counterexample.) -/
theorem claim_C8_cancellation_before_flash_end
    (ora : Oracle) (cancel : Nat → Bool) (imgs : List Image) (usb : Bool)
    (l₁ l₂ : List Ev)
    (hsplit : runFlash ora cancel imgs usb = l₁ ++ Ev.poll true :: l₂)
    (hbefore : ∀ f, Ev.write (Packet.flashEnd f) ∉ l₁) :
    (∀ f, Ev.write (Packet.flashEnd f) ∉ runFlash ora cancel imgs usb) ∧
    Ev.closeTransport ∈ runFlash ora cancel imgs usb ∧
    lastEmitted (runFlash ora cancel imgs usb) =
      some (FlashingState.mkError FlashingErrorType.cancelled 0) := by
  have hflash : runFlash ora cancel imgs usb =
      match (runImages ora cancel ((imgs.map Image.size).sum) 0 imgs 0 0).2.1 with
      | some e =>
        (runImages ora cancel ((imgs.map Image.size).sum) 0 imgs 0 0).1 ++
          [Ev.closeTransport, Ev.emit (classifyCaught
            (cancel (runImages ora cancel ((imgs.map Image.size).sum) 0 imgs 0 0).2.2) e)]
      | none =>
        (runImages ora cancel ((imgs.map Image.size).sum) 0 imgs 0 0).1 ++
            [Ev.emit FlashingState.verifying, Ev.emit FlashingState.restarting,
              Ev.write (Packet.flashEnd 0), Ev.poll
                (cancel (runImages ora cancel ((imgs.map Image.size).sum) 0 imgs 0 0).2.2)] ++
          (if usb then [Ev.hardReset] else []) ++
          [Ev.emit FlashingState.complete, Ev.closeTransport] := rfl
  cases hex : (runImages ora cancel ((imgs.map Image.size).sum) 0 imgs 0 0).2.1 with
  | some e =>
    have htr : runFlash ora cancel imgs usb =
        (runImages ora cancel ((imgs.map Image.size).sum) 0 imgs 0 0).1 ++
          [Ev.closeTransport, Ev.emit (classifyCaught
            (cancel (runImages ora cancel ((imgs.map Image.size).sum) 0 imgs 0 0).2.2) e)] := by
      rw [hflash, hex]
    have hpoll : Ev.poll true ∈
        (runImages ora cancel ((imgs.map Image.size).sum) 0 imgs 0 0).1 := by
      have hmem : Ev.poll true ∈ runFlash ora cancel imgs usb := by
        rw [hsplit]; simp
      rw [htr] at hmem
      rcases List.mem_append.mp hmem with h | h
      · exact h
      · simp at h
    have hcanc := runImages_poll_true ora cancel ((imgs.map Image.size).sum) imgs 0 0 0 hpoll
    rw [hex] at hcanc
    have he : e = FlashExn.cancelled := by simpa using hcanc
    subst he
    refine ⟨fun f => ?_, ?_, ?_⟩
    · rw [htr]
      intro hmem
      rcases List.mem_append.mp hmem with h | h
      · exact runImages_no_flashEnd ora cancel _ imgs 0 0 0 f h
      · simp at h
    · rw [htr]
      simp
    · rw [htr, classifyCaught_cancelled]
      exact lastEmitted_error_tail _ _
  | none =>
    exfalso
    have hnp : Ev.poll true ∉
        (runImages ora cancel ((imgs.map Image.size).sum) 0 imgs 0 0).1 := by
      intro hmem
      have := runImages_poll_true ora cancel ((imgs.map Image.size).sum) imgs 0 0 0 hmem
      rw [hex] at this
      exact Option.noConfusion this
    cases hc : cancel (runImages ora cancel ((imgs.map Image.size).sum) 0 imgs 0 0).2.2 with
    | false =>
      have hmem : Ev.poll true ∈ runFlash ora cancel imgs usb := by
        rw [hsplit]; simp
      rw [hflash, hex, hc] at hmem
      cases usb <;> simp [hnp] at hmem
    | true =>
      have heq : runFlash ora cancel imgs usb =
          ((runImages ora cancel ((imgs.map Image.size).sum) 0 imgs 0 0).1 ++
            [Ev.emit FlashingState.verifying, Ev.emit FlashingState.restarting,
              Ev.write (Packet.flashEnd 0)]) ++ Ev.poll true ::
            ((if usb then [Ev.hardReset] else []) ++
              [Ev.emit FlashingState.complete, Ev.closeTransport]) := by
        rw [hflash, hex, hc]
        simp
      have hP : Ev.poll true ∉
          (runImages ora cancel ((imgs.map Image.size).sum) 0 imgs 0 0).1 ++
            [Ev.emit FlashingState.verifying, Ev.emit FlashingState.restarting,
              Ev.write (Packet.flashEnd 0)] := by
        intro hmem
        rcases List.mem_append.mp hmem with h | h
        · exact hnp h
        · simp at h
      have hT : Ev.poll true ∉
          ((if usb then [Ev.hardReset] else []) ++
            [Ev.emit FlashingState.complete, Ev.closeTransport]) := by
        cases usb <;> simp
      have hsp := split_around_missing (hsplit.symm.trans heq) hP hT
      have : Ev.write (Packet.flashEnd 0) ∈ l₁ := by
        rw [hsp.1]
        simp
      exact hbefore 0 this

/-- C8 as written is false: if the cancellation flag first becomes set at
the poll inside the `FLASH_END` `waitForResponse` (FlashingService.cpp,
line 432), the resulting "Cancelled" exception is swallowed by `flashEnd`
because `reboot` is true (lines 406-416), and the run still terminates
with `Complete` rather than `Error(Cancelled)`. -/
theorem claim_C8_counterexample :
    (∃ l₁ l₂ : List Ev,
      runFlash allOkOracle (fun k => decide (4 ≤ k)) [⟨0x10000, [0xE9]⟩] true =
        l₁ ++ Ev.poll true :: l₂) ∧
    lastEmitted (runFlash allOkOracle (fun k => decide (4 ≤ k)) [⟨0x10000, [0xE9]⟩] true) =
      some FlashingState.complete ∧
    FlashingState.complete ≠ FlashingState.mkError FlashingErrorType.cancelled 0 := by
  have htr : runFlash allOkOracle (fun k => decide (4 ≤ k)) [⟨0x10000, [0xE9]⟩] true =
      [Ev.poll false, Ev.emit FlashingState.erasing,
       Ev.write (Packet.flashBegin 1 1 1024 0x10000), Ev.poll false, Ev.poll false,
       Ev.emit (FlashingState.flashing (overallProgress 0 1 1 0 1)),
       Ev.write (Packet.flashData (Image.blockData ⟨0x10000, [0xE9]⟩ 0) 0), Ev.poll false,
       Ev.emit FlashingState.verifying, Ev.emit FlashingState.restarting,
       Ev.write (Packet.flashEnd 0), Ev.poll true, Ev.hardReset,
       Ev.emit FlashingState.complete, Ev.closeTransport] := by
    simp [runFlash, runImages, runBlocks, allOkOracle, Image.numBlocks, Image.size,
      ESP32Protocol.FLASH_BLOCK_SIZE]
  refine ⟨⟨[Ev.poll false, Ev.emit FlashingState.erasing,
       Ev.write (Packet.flashBegin 1 1 1024 0x10000), Ev.poll false, Ev.poll false,
       Ev.emit (FlashingState.flashing (overallProgress 0 1 1 0 1)),
       Ev.write (Packet.flashData (Image.blockData ⟨0x10000, [0xE9]⟩ 0) 0), Ev.poll false,
       Ev.emit FlashingState.verifying, Ev.emit FlashingState.restarting,
       Ev.write (Packet.flashEnd 0)],
      [Ev.hardReset, Ev.emit FlashingState.complete, Ev.closeTransport],
      by rw [htr]; rfl⟩,
    ?_, by decide⟩
  rw [htr]
  simp [lastEmitted, emittedStates]

/-- Closed witness for the amended C8: cancellation first observed at the
block-loop poll of the only block; the run closes the transport and ends
in `Error(Cancelled)` without ever writing `FLASH_END`. -/
theorem claim_C8_witness :
    (∀ f, Ev.write (Packet.flashEnd f) ∉
      runFlash allOkOracle (fun k => decide (2 ≤ k)) [⟨0x10000, [0xE9]⟩] true) ∧
    Ev.closeTransport ∈
      runFlash allOkOracle (fun k => decide (2 ≤ k)) [⟨0x10000, [0xE9]⟩] true ∧
    lastEmitted (runFlash allOkOracle (fun k => decide (2 ≤ k)) [⟨0x10000, [0xE9]⟩] true) =
      some (FlashingState.mkError FlashingErrorType.cancelled 0) :=
  claim_C8_cancellation_before_flash_end allOkOracle (fun k => decide (2 ≤ k))
    [⟨0x10000, [0xE9]⟩] true
    [Ev.poll false, Ev.emit FlashingState.erasing,
      Ev.write (Packet.flashBegin 1 1 1024 0x10000), Ev.poll false]
    [Ev.closeTransport, Ev.emit (FlashingState.mkError FlashingErrorType.cancelled 0)]
    (by
      simp [runFlash, runImages, runBlocks, allOkOracle, Image.numBlocks, Image.size,
        ESP32Protocol.FLASH_BLOCK_SIZE, classifyCaught, FlashExn.msgHasCancelled])
    (by intro f; simp)

theorem flatMap_singleton_eq_map {α β : Type} (l : List α) (f : α → β) :
    (l.flatMap fun a => [f a]) = l.map f := by
  induction l <;> simp_all

theorem runBlocks_ok (ora : Oracle) (cancel : Nat → Bool) (imgIdx : Nat) (img : Image)
    (bf total : Nat) (hcancel : ∀ k, cancel k = false)
    (hdata : ∀ b, ora.dataResp imgIdx b = (0, 0)) :
    ∀ (bs : List Nat) (k : Nat),
    runBlocks ora cancel imgIdx img bf total bs k =
      (bs.flatMap (fun b =>
        [Ev.poll false,
         Ev.emit (FlashingState.flashing (overallProgress bf img.size total b img.numBlocks)),
         Ev.write (Packet.flashData (img.blockData b) b), Ev.poll false]),
       none, k + 2 * bs.length) := by
  intro bs
  induction bs with
  | nil => intro k; simp [runBlocks]
  | cons b rest ih =>
    intro k
    have hb := hdata b
    simp only [runBlocks, hcancel, hb, Bool.false_eq_true, if_neg, reduceIte, beq_self_eq_true,
      Bool.and_self, ih (k + 2), List.flatMap_cons, List.length_cons, Prod.mk.injEq]
    refine ⟨by simp, trivial, by omega⟩

theorem runImages_ok (ora : Oracle) (cancel : Nat → Bool) (total : Nat)
    (hcancel : ∀ k, cancel k = false)
    (hbegin : ∀ i, ora.beginResp i = (0, 0)) (hdata : ∀ i b, ora.dataResp i b = (0, 0)) :
    ∀ (L : List Image) (imgIdx bf k : Nat),
    (runImages ora cancel total imgIdx L bf k).1 = okImagesTrace total L bf ∧
    (runImages ora cancel total imgIdx L bf k).2.1 = none := by
  intro L
  induction L with
  | nil => intro imgIdx bf k; simp [runImages, okImagesTrace]
  | cons img rest ih =>
    intro imgIdx bf k
    have hb := hbegin imgIdx
    have hrb := runBlocks_ok ora cancel imgIdx img bf total hcancel (hdata imgIdx)
      (List.range img.numBlocks) (k + 2)
    have hri := ih (imgIdx + 1) (bf + img.size)
      (k + 2 + 2 * (List.range img.numBlocks).length)
    simp only [runImages, hcancel, hb, Bool.false_eq_true, if_neg, reduceIte,
      beq_self_eq_true, Bool.and_self, hrb]
    simp only [okImagesTrace, (hri).1, (hri).2]
    constructor
    · simp
    · trivial

theorem runFlash_ok (ora : Oracle) (imgs : List Image) (usb : Bool)
    (hbegin : ∀ i, ora.beginResp i = (0, 0)) (hdata : ∀ i b, ora.dataResp i b = (0, 0)) :
    runFlash ora (fun _ => false) imgs usb =
      okImagesTrace ((imgs.map Image.size).sum) imgs 0 ++
        [Ev.emit FlashingState.verifying, Ev.emit FlashingState.restarting,
         Ev.write (Packet.flashEnd 0), Ev.poll false] ++
        (if usb then [Ev.hardReset] else []) ++
        [Ev.emit FlashingState.complete, Ev.closeTransport] := by
  have h := runImages_ok ora (fun _ => false) ((imgs.map Image.size).sum)
    (fun _ => rfl) hbegin hdata imgs 0 0 0
  show (match (runImages ora (fun _ => false) ((imgs.map Image.size).sum) 0 imgs 0 0).2.1 with
      | some e =>
        (runImages ora (fun _ => false) ((imgs.map Image.size).sum) 0 imgs 0 0).1 ++
          [Ev.closeTransport, Ev.emit (classifyCaught false e)]
      | none =>
        (runImages ora (fun _ => false) ((imgs.map Image.size).sum) 0 imgs 0 0).1 ++
            [Ev.emit FlashingState.verifying, Ev.emit FlashingState.restarting,
              Ev.write (Packet.flashEnd 0), Ev.poll false] ++
          (if usb then [Ev.hardReset] else []) ++
          [Ev.emit FlashingState.complete, Ev.closeTransport]) = _
  rw [h.2, h.1]

theorem blockData_length (img : Image) (b : Nat) :
    (img.blockData b).length = ESP32Protocol.FLASH_BLOCK_SIZE := by
  dsimp only [Image.blockData]
  split
  · simp only [List.length_append, List.length_replicate, List.length_take]
    omega
  · simp only [List.length_take] at *
    omega

theorem blockData_zero_of_le (off : Nat) (l : List Nat) (hlen : l.length ≤ 1024) :
    Image.blockData ⟨off, l⟩ 0 =
      l ++ List.replicate (ESP32Protocol.FLASH_BLOCK_SIZE - l.length) 0xFF := by
  unfold Image.blockData
  simp only [ESP32Protocol.FLASH_BLOCK_SIZE, Nat.zero_mul, List.drop_zero,
    List.take_of_length_le hlen]
  rcases Nat.lt_or_ge l.length 1024 with h | h
  · rw [if_pos h]
  · have : l.length = 1024 := by omega
    rw [if_neg (by omega), this]
    simp

theorem blockData_head_of_gt (off : Nat) (l : List Nat) (hlen : 1024 < l.length) :
    Image.blockData ⟨off, l⟩ 0 = l.take 1024 := by
  unfold Image.blockData
  simp only [ESP32Protocol.FLASH_BLOCK_SIZE, Nat.zero_mul, List.drop_zero]
  rw [if_neg (by simp [List.length_take]; omega)]

theorem blockData_succ (off : Nat) (l : List Nat) (b : Nat) :
    Image.blockData ⟨off, l⟩ (b + 1) = Image.blockData ⟨off, l.drop 1024⟩ b := by
  unfold Image.blockData
  simp only [ESP32Protocol.FLASH_BLOCK_SIZE, List.drop_drop]
  rw [show (1024 : Nat) + b * 1024 = (b + 1) * 1024 from by ring]

theorem numBlocks_pos (off : Nat) (l : List Nat) (hne : l ≠ []) :
    1 ≤ Image.numBlocks ⟨off, l⟩ := by
  have hl : 1 ≤ l.length := List.length_pos.mpr hne
  simp only [Image.numBlocks, Image.size, ESP32Protocol.FLASH_BLOCK_SIZE]
  omega

theorem blocks_flatten (l : List Nat) (off : Nat) (hne : l ≠ []) :
    ((List.range (Image.numBlocks ⟨off, l⟩)).map (Image.blockData ⟨off, l⟩)).flatten =
      l ++ List.replicate
        (ESP32Protocol.FLASH_BLOCK_SIZE * Image.numBlocks ⟨off, l⟩ - l.length) 0xFF := by
  generalize hn : Image.numBlocks ⟨off, l⟩ = n
  induction n generalizing l with
  | zero =>
    exfalso
    have := numBlocks_pos off l hne
    omega
  | succ m ih =>
    have hl : 1 ≤ l.length := List.length_pos.mpr hne
    have hnval : (l.length + 1024 - 1) / 1024 = m + 1 := by
      simpa [Image.numBlocks, Image.size, ESP32Protocol.FLASH_BLOCK_SIZE] using hn
    by_cases hlen : l.length ≤ 1024
    · have hm : m = 0 := by
        by_contra hm0
        have h2 : 2 ≤ (l.length + 1024 - 1) / 1024 := by omega
        have := (Nat.le_div_iff_mul_le (by norm_num : 0 < 1024)).mp h2
        omega
      subst hm
      rw [List.range_succ, List.range_zero, List.nil_append, List.map_cons, List.map_nil,
        List.flatten_cons, List.flatten_nil, List.append_nil,
        blockData_zero_of_le off l hlen]
      simp [ESP32Protocol.FLASH_BLOCK_SIZE]
    · push_neg at hlen
      have hdl : Image.numBlocks ⟨off, l.drop 1024⟩ = m := by
        simp only [Image.numBlocks, Image.size, ESP32Protocol.FLASH_BLOCK_SIZE,
          List.length_drop]
        have e1 : l.length + 1024 - 1 = (l.length - 1 - 1024) + 1024 + 1024 := by omega
        rw [e1, Nat.add_div_right _ (by norm_num), Nat.add_div_right _ (by norm_num)]
          at hnval
        have e2 : l.length - 1024 + 1024 - 1 = (l.length - 1 - 1024) + 1024 := by omega
        rw [e2, Nat.add_div_right _ (by norm_num)]
        omega
      have hdne : l.drop 1024 ≠ [] := by
        intro h
        have := congrArg List.length h
        simp only [List.length_drop, List.length_nil] at this
        omega
      have hIH := ih (l.drop 1024) hdne hdl
      rw [List.range_succ_eq_map, List.map_cons, List.flatten_cons,
        blockData_head_of_gt off l hlen]
      have hmapeq : (List.map Nat.succ (List.range m)).map (Image.blockData ⟨off, l⟩) =
          (List.range m).map (Image.blockData ⟨off, l.drop 1024⟩) := by
        rw [List.map_map]
        refine List.map_congr_left fun b _ => ?_
        exact blockData_succ off l b
      rw [hmapeq, hIH, ← List.append_assoc, List.take_append_drop]
      congr 2
      simp only [List.length_drop, ESP32Protocol.FLASH_BLOCK_SIZE]
      omega

theorem flashDataWrites_tail (tr : List Ev) (usb : Bool) :
    flashDataWrites (tr ++
        [Ev.emit FlashingState.verifying, Ev.emit FlashingState.restarting,
          Ev.write (Packet.flashEnd 0), Ev.poll false] ++
        (if usb then [Ev.hardReset] else []) ++
        [Ev.emit FlashingState.complete, Ev.closeTransport]) = flashDataWrites tr := by
  cases usb <;> simp [flashDataWrites, List.filterMap_append]

theorem flashDataWrites_okTrace (img : Image) (total bf : Nat) :
    flashDataWrites (okImagesTrace total [img] bf) =
      (List.range img.numBlocks).map (fun b => (img.blockData b, b)) := by
  simp only [okImagesTrace, flashDataWrites, List.filterMap_append, List.filterMap_flatMap]
  simp [flatMap_singleton_eq_map]

/-- C5: in a run where the loader accepts every command and cancellation is
never requested, the orchestrator sends for a non-empty image exactly
`⌈size / 1024⌉` FLASH_DATA blocks with sequence numbers `0, 1, …` in order,
each block exactly 1024 bytes; the first `size` bytes of the concatenated
blocks equal the image payload and the rest is `0xFF` padding. -/
theorem claim_C5_block_stream (img : Image) (ora : Oracle) (usb : Bool)
    (hne : img.data ≠ [])
    (hbegin : ∀ i, ora.beginResp i = (0, 0))
    (hdata : ∀ i b, ora.dataResp i b = (0, 0)) :
    flashDataWrites (runFlash ora (fun _ => false) [img] usb) =
      (List.range img.numBlocks).map (fun b => (img.blockData b, b)) ∧
    img.size ≤ ESP32Protocol.FLASH_BLOCK_SIZE * img.numBlocks ∧
    ESP32Protocol.FLASH_BLOCK_SIZE * img.numBlocks <
      img.size + ESP32Protocol.FLASH_BLOCK_SIZE ∧
    (∀ w ∈ flashDataWrites (runFlash ora (fun _ => false) [img] usb),
      w.1.length = ESP32Protocol.FLASH_BLOCK_SIZE) ∧
    (flashDataWrites (runFlash ora (fun _ => false) [img] usb)).map Prod.snd =
      List.range img.numBlocks ∧
    (((List.range img.numBlocks).map img.blockData).flatten).take img.size = img.data ∧
    (((List.range img.numBlocks).map img.blockData).flatten).drop img.size =
      List.replicate (ESP32Protocol.FLASH_BLOCK_SIZE * img.numBlocks - img.size) 0xFF := by
  obtain ⟨off, l⟩ := img
  have hsz : Image.size ⟨off, l⟩ = l.length := rfl
  have hl : 1 ≤ l.length := List.length_pos.mpr hne
  have hwrites : flashDataWrites (runFlash ora (fun _ => false) [⟨off, l⟩] usb) =
      (List.range (Image.numBlocks ⟨off, l⟩)).map
        (fun b => (Image.blockData ⟨off, l⟩ b, b)) := by
    rw [runFlash_ok ora [⟨off, l⟩] usb hbegin hdata, flashDataWrites_tail,
      flashDataWrites_okTrace]
  have hdiv : l.length ≤ 1024 * Image.numBlocks ⟨off, l⟩ ∧
      1024 * Image.numBlocks ⟨off, l⟩ < l.length + 1024 := by
    simp only [Image.numBlocks, hsz, ESP32Protocol.FLASH_BLOCK_SIZE]
    have h1 := Nat.div_add_mod (l.length + 1024 - 1) 1024
    have h2 : (l.length + 1024 - 1) % 1024 < 1024 := Nat.mod_lt _ (by norm_num)
    omega
  have hflat := blocks_flatten l off hne
  refine ⟨hwrites, ?_, ?_, ?_, ?_, ?_, ?_⟩
  · exact hdiv.1
  · exact hdiv.2
  · intro w hw
    rw [hwrites] at hw
    obtain ⟨b, _, hb⟩ := List.mem_map.mp hw
    rw [← hb]
    exact blockData_length ⟨off, l⟩ b
  · have hid : (Prod.snd ∘ fun b => (Image.blockData ⟨off, l⟩ b, b)) = id := rfl
    rw [hwrites, List.map_map, hid, List.map_id]
  · rw [hflat, hsz, List.take_left]
  · rw [hflat, hsz, List.drop_left]

/-- Closed witness for C5 at a concrete five-byte image (one padded
block). -/
theorem claim_C5_witness :
    ([0xE9, 1, 2, 3, 4] : List Nat) ≠ [] ∧
    flashDataWrites (runFlash allOkOracle (fun _ => false)
        [⟨0x10000, [0xE9, 1, 2, 3, 4]⟩] true) =
      (List.range (Image.numBlocks ⟨0x10000, [0xE9, 1, 2, 3, 4]⟩)).map
        (fun b => (Image.blockData ⟨0x10000, [0xE9, 1, 2, 3, 4]⟩ b, b)) :=
  ⟨by decide, (claim_C5_block_stream ⟨0x10000, [0xE9, 1, 2, 3, 4]⟩ allOkOracle true
    (by decide) (fun _ => rfl) (fun _ _ => rfl)).1⟩

theorem progressValues_tail (tr : List Ev) (usb : Bool) :
    progressValues (tr ++
        [Ev.emit FlashingState.verifying, Ev.emit FlashingState.restarting,
          Ev.write (Packet.flashEnd 0), Ev.poll false] ++
        (if usb then [Ev.hardReset] else []) ++
        [Ev.emit FlashingState.complete, Ev.closeTransport]) = progressValues tr := by
  cases usb <;>
    simp [progressValues, List.filterMap_append, FlashingState.verifying,
      FlashingState.restarting, FlashingState.complete]

theorem progressValues_okTrace (total : Nat) :
    ∀ (L : List Image) (bf : Nat),
    progressValues (okImagesTrace total L bf) = okProgress total L bf := by
  intro L
  induction L with
  | nil => intro bf; simp [okImagesTrace, okProgress, progressValues]
  | cons img rest ih =>
    intro bf
    have hih := ih (bf + img.size)
    simp only [progressValues] at hih
    simp only [okImagesTrace, okProgress, progressValues, List.filterMap_append,
      List.filterMap_flatMap, hih]
    simp [FlashingState.erasing, FlashingState.flashing, flatMap_singleton_eq_map]

theorem okProgress_chain (total : Nat) (htotal : 0 < total) :
    ∀ (L : List Image) (bf : Nat), (∀ i ∈ L, i.data ≠ []) →
      List.Chain' (· ≤ ·) (okProgress total L bf) ∧
      (∀ x ∈ okProgress total L bf, ((bf : ℚ) / (total : ℚ)) ≤ x) ∧
      (L ≠ [] → (okProgress total L bf).getLast? =
        some (((bf + (L.map Image.size).sum : ℕ) : ℚ) / (total : ℚ))) := by
  have hQt : (0 : ℚ) < (total : ℚ) := by exact_mod_cast htotal
  intro L
  induction L with
  | nil =>
    intro bf _
    exact ⟨by simp [okProgress], by simp [okProgress], fun h => absurd rfl h⟩
  | cons img rest ih =>
    intro bf hne
    have himg : img.data ≠ [] := hne img (List.mem_cons_self img rest)
    have hrest : ∀ i ∈ rest, i.data ≠ [] := fun i hi => hne i (List.mem_cons_of_mem img hi)
    obtain ⟨IH1, IH2, IH3⟩ := ih (bf + img.size) hrest
    have hnpos : 1 ≤ img.numBlocks := numBlocks_pos img.offset img.data himg
    have hQn : (0 : ℚ) < (img.numBlocks : ℚ) := by exact_mod_cast hnpos
    have hmono : ∀ b : Nat,
        overallProgress bf img.size total b img.numBlocks ≤
          overallProgress bf img.size total (b + 1) img.numBlocks := by
      intro b
      unfold overallProgress
      push_cast
      gcongr
      linarith
    have hchain1 : List.Chain' (· ≤ ·) ((List.range img.numBlocks).map
        (fun b => overallProgress bf img.size total b img.numBlocks)) := by
      rw [List.chain'_map]
      rcases hn : img.numBlocks with _ | m
      · simp
      · rw [List.chain'_range_succ]
        intro i _
        have hi := hmono i
        rw [hn] at hi
        exact hi
    have hbound1 : ∀ x ∈ (List.range img.numBlocks).map
        (fun b => overallProgress bf img.size total b img.numBlocks),
        ((bf : ℚ) / (total : ℚ)) ≤ x := by
      intro x hx
      obtain ⟨b, _, rfl⟩ := List.mem_map.mp hx
      have hnn : (0 : ℚ) ≤ ((b : ℚ) + 1) / (img.numBlocks : ℚ) * (img.size : ℚ) := by
        positivity
      unfold overallProgress
      gcongr
      linarith [hnn]
    have hlast1 : ((List.range img.numBlocks).map
        (fun b => overallProgress bf img.size total b img.numBlocks)).getLast? =
        some (((bf + img.size : ℕ) : ℚ) / (total : ℚ)) := by
      rcases hn : img.numBlocks with _ | m
      · omega
      · rw [List.range_succ, List.map_append, List.map_cons, List.map_nil,
          List.getLast?_concat]
        unfold overallProgress
        push_cast
        rw [div_self (by positivity), one_mul]
    simp only [okProgress, List.map_cons, List.sum_cons]
    refine ⟨?_, ?_, ?_⟩
    · rw [List.chain'_append]
      refine ⟨hchain1, IH1, ?_⟩
      intro x hx y hy
      simp only [Option.mem_def] at hx
      rw [hlast1] at hx
      have hxval : x = ((bf + img.size : ℕ) : ℚ) / (total : ℚ) := by
        exact (Option.some.inj hx).symm
      have hymem : y ∈ okProgress total rest (bf + img.size) := List.mem_of_mem_head? hy
      rw [hxval]
      exact IH2 y hymem
    · intro x hx
      rcases List.mem_append.mp hx with h | h
      · exact hbound1 x h
      · refine le_trans ?_ (IH2 x h)
        push_cast
        gcongr
        linarith [Nat.cast_nonneg (α := ℚ) img.size]
    · intro _
      by_cases hrest0 : rest = []
      · subst hrest0
        simp only [okProgress, List.append_nil]
        rw [hlast1]
        congr 2
      · rw [List.getLast?_append, IH3 hrest0]
        simp only [Option.or_some]
        congr 2
        push_cast
        ring

/-- C7: over a full successful run on a non-empty bundle of non-empty
images sorted by offset, the progress values carried by the `Flashing`
events (computed with exact arithmetic) are non-decreasing across all
block boundaries, including image-to-image transitions, and the final
value equals 1. -/
theorem claim_C7_progress_monotone (imgs : List Image) (ora : Oracle) (usb : Bool)
    (hnil : imgs ≠ []) (himg : ∀ i ∈ imgs, i.data ≠ [])
    (hsorted : List.Sorted (fun a b : Image => a.offset ≤ b.offset) imgs)
    (hbegin : ∀ i, ora.beginResp i = (0, 0)) (hdata : ∀ i b, ora.dataResp i b = (0, 0)) :
    List.Chain' (· ≤ ·) (progressValues (runFlash ora (fun _ => false) imgs usb)) ∧
    (progressValues (runFlash ora (fun _ => false) imgs usb)).getLast? = some 1 := by
  have htotal : 0 < (imgs.map Image.size).sum := by
    rcases imgs with _ | ⟨i0, r⟩
    · exact absurd rfl hnil
    · have h0 : i0.data ≠ [] := himg i0 (List.mem_cons_self i0 r)
      have : 1 ≤ i0.size := List.length_pos.mpr h0
      simp only [List.map_cons, List.sum_cons]
      omega
  have hpv : progressValues (runFlash ora (fun _ => false) imgs usb) =
      okProgress ((imgs.map Image.size).sum) imgs 0 := by
    rw [runFlash_ok ora imgs usb hbegin hdata, progressValues_tail, progressValues_okTrace]
  obtain ⟨h1, _, h3⟩ := okProgress_chain ((imgs.map Image.size).sum) htotal imgs 0 himg
  refine ⟨hpv ▸ h1, ?_⟩
  rw [hpv, h3 hnil]
  congr 1
  rw [Nat.zero_add]
  have hcast : (0 : ℚ) < ((imgs.map Image.size).sum : ℚ) := by exact_mod_cast htotal
  exact div_self (ne_of_gt hcast)

/-- Closed witness for C7: a sorted two-image bundle (2 bytes at 0x0000 and
1 byte at 0x10000); the emitted progress values are 2/3 then 1. -/
theorem claim_C7_witness :
    List.Chain' (· ≤ ·) (progressValues (runFlash allOkOracle (fun _ => false)
      [⟨0, [0xE9, 1]⟩, ⟨0x10000, [0xE9]⟩] true)) ∧
    (progressValues (runFlash allOkOracle (fun _ => false)
      [⟨0, [0xE9, 1]⟩, ⟨0x10000, [0xE9]⟩] true)).getLast? = some 1 :=
  claim_C7_progress_monotone [⟨0, [0xE9, 1]⟩, ⟨0x10000, [0xE9]⟩] allOkOracle true
    (by decide) (by decide) (by decide) (fun _ => rfl) (fun _ _ => rfl)

end FlashingService
